import Mathlib

/-!
Verification of the PDF processing system (regex field extraction, record
store, pending-order review queue, worker retry behaviour) against its
natural-language specification.

The Python sources are shallowly embedded: the four regular expressions of
the field extractor are implemented as executable leftmost-match functions
over `List Char` (each one specialised to its pattern, with the greedy /
backtracking behaviour of Python `re` made explicit); SQLite tables are
lists of row structures; the ambient clock (`datetime.now()`) is an
explicit `Nat` parameter; Python exceptions are `Except.error` values;
amounts (Python floats obtained from decimal tokens) are exact rationals.
-/

def strL (s : String) : List Char := s.toList

def isUpperAlpha (c : Char) : Bool := decide ('A' ≤ c) && decide (c ≤ 'Z')

def isLowerAlpha (c : Char) : Bool := decide ('a' ≤ c) && decide (c ≤ 'z')

def isAlphaCh (c : Char) : Bool := isUpperAlpha c || isLowerAlpha c

def isDigitCh (c : Char) : Bool := decide ('0' ≤ c) && decide (c ≤ '9')

/-- ASCII fragment of the regex class backslash-s: space, tab, LF, CR, VT, FF. -/
def isSpaceCh (c : Char) : Bool :=
  decide (c = ' ') || decide (c = '\t') || decide (c = '\n') || decide (c = '\r')
    || decide (c = Char.ofNat 11) || decide (c = Char.ofNat 12)

/-- ASCII lower-casing, used for the re.IGNORECASE literal comparisons. -/
def lowerChar (c : Char) : Char :=
  if isUpperAlpha c then Char.ofNat (c.toNat + 32) else c

/-- Case-insensitive match of a literal (given in lowercase) at the head of
the input; returns the remaining input on success. -/
def startsWithCI : List Char → List Char → Option (List Char)
  | [], cs => some cs
  | _ :: _, [] => none
  | l :: lt, c :: ct => if lowerChar c = l then startsWithCI lt ct else none

/-- Character class of the invoice pattern separator part (hash or whitespace). -/
def isHashOrWS (c : Char) : Bool := decide (c = '#') || isSpaceCh c

/-- Character class of the invoice token group under re.IGNORECASE:
the class of uppercase letters, digits and hyphen also admits lowercase letters. -/
def isInvTok (c : Char) : Bool := isUpperAlpha c || isLowerAlpha c || isDigitCh c || decide (c = '-')

/-- Match, at the current position, of the invoice regex
(the word invoice, then one or more hash/whitespace, then a group of one or
more letters/digits/hyphens; case-insensitive), returning the captured group.
All adjacent character classes are disjoint, so the greedy quantifiers are
deterministic maximal munch. -/
def matchInvoiceAt (cs : List Char) : Option (List Char) :=
  match startsWithCI (strL "invoice") cs with
  | none => none
  | some rest =>
    if (rest.takeWhile isHashOrWS).isEmpty then none
    else
      let tok := (rest.dropWhile isHashOrWS).takeWhile isInvTok
      if tok.isEmpty then none else some tok

def isColonOrWS (c : Char) : Bool := decide (c = ':') || isSpaceCh c

def isDigitComma (c : Char) : Bool := isDigitCh c || decide (c = ',')

/-- Match, at the current position, of the total regex
(the word total, then colons/whitespace, an optional dollar sign, then the
group: one or more digits/commas, an optional dot, then optional digits;
case-insensitive), returning the captured group.  The greedy quantifiers
are deterministic because the adjacent classes are disjoint and the
pattern ends after the group. -/
def matchTotalAt (cs : List Char) : Option (List Char) :=
  match startsWithCI (strL "total") cs with
  | none => none
  | some rest =>
    let rest2 := rest.dropWhile isColonOrWS
    let rest3 := match rest2 with
      | '$' :: t => t
      | _ => rest2
    let run := rest3.takeWhile isDigitComma
    if run.isEmpty then none
    else
      match rest3.dropWhile isDigitComma with
      | '.' :: t => some (run ++ '.' :: t.takeWhile isDigitCh)
      | _ => some run

/-- Local-part character class of the email regex. -/
def isLocalCh (c : Char) : Bool :=
  isAlphaCh c || isDigitCh c || decide (c = '.') || decide (c = '_')
    || decide (c = '%') || decide (c = '+') || decide (c = '-')

/-- Domain character class of the email regex. -/
def isDomainCh (c : Char) : Bool :=
  isAlphaCh c || isDigitCh c || decide (c = '.') || decide (c = '-')

/-- Position m inside the maximal domain run D at which the mandatory dot of
the email regex can match: a dot with a nonempty domain part before it and
at least two letters after it. -/
def validDot (D : List Char) (m : Nat) : Bool :=
  decide (1 ≤ m) && decide (D.get? m = some '.')
    && decide (2 ≤ ((D.drop (m + 1)).takeWhile isAlphaCh).length)

/-- The dot position actually used: the backtracking engine shortens the
greedy domain run from the right, so the largest valid position wins. -/
def bestDot (D : List Char) : Option Nat :=
  ((List.range D.length).filter (validDot D)).getLast?

/-- Match, at the current position, of the email regex
(local part, at-sign, domain, dot, a TLD of two or more letters), returning
the captured group (the whole match).  The local and domain runs are greedy;
only the domain run needs real backtracking, resolved by bestDot. -/
def matchEmailAt (cs : List Char) : Option (List Char) :=
  let loc := cs.takeWhile isLocalCh
  if loc.isEmpty then none
  else
    match cs.dropWhile isLocalCh with
    | '@' :: rest =>
      let D := rest.takeWhile isDomainCh
      match bestDot D with
      | some m =>
        some (loc ++ '@' :: (D.take m ++ '.' :: ((D.drop (m + 1)).takeWhile isAlphaCh)))
      | none => none
    | _ => none

def isSepCh (c : Char) : Bool := decide (c = '/') || decide (c = '-')

/-- The alternatives of a greedy one-or-two-digit quantifier, longest first,
each with the remaining input. -/
def digits12 : List Char → List (List Char × List Char)
  | a :: b :: t =>
    if isDigitCh a && isDigitCh b then [([a, b], t), ([a], b :: t)]
    else if isDigitCh a then [([a], b :: t)] else []
  | [a] => if isDigitCh a then [([a], [])] else []
  | [] => []

def firstSome {α β : Type} : List α → (α → Option β) → Option β
  | [], _ => none
  | a :: t, f =>
    match f a with
    | some b => some b
    | none => firstSome t f

/-- Two-to-four-digit year component: greedy, nothing follows it in the
pattern, so it takes at most four digits of the digit run and needs two. -/
def matchYear (cs : List Char) : Option (List Char) :=
  let run := (cs.takeWhile isDigitCh).take 4
  if 2 ≤ run.length then some run else none

/-- Match, at the current position, of the date regex
(one or two digits, slash or hyphen, one or two digits, slash or hyphen,
two to four digits), returning the captured group (the whole match), with
the backtracking over the one-or-two-digit components made explicit. -/
def matchDateAt (cs : List Char) : Option (List Char) :=
  firstSome (digits12 cs) fun d1r =>
    match d1r.2 with
    | s1 :: r2 =>
      if isSepCh s1 then
        firstSome (digits12 r2) fun d2r =>
          match d2r.2 with
          | s2 :: r4 =>
            if isSepCh s2 then
              (matchYear r4).map fun y => d1r.1 ++ s1 :: (d2r.1 ++ s2 :: y)
            else none
          | [] => none
      else none
    | [] => none

/-- Leftmost search: Python re.search tries every start position from the
left and returns the first position at which the pattern matches. -/
def searchM (f : List Char → Option (List Char)) : List Char → Option (List Char)
  | [] => f []
  | c :: t =>
    match f (c :: t) with
    | some g => some g
    | none => searchM f t

/-- The source strips thousands separators with replace before float(). -/
def stripCommas (cs : List Char) : List Char := cs.filter fun c => c != ','

def digitsToNat (cs : List Char) : Nat := cs.foldl (fun n c => n * 10 + (c.toNat - 48)) 0

/-- Python float() restricted to the comma-stripped tokens the total regex
can capture: digits, optionally a dot and further digits.  The empty string
and a lone dot raise ValueError, modelled as none. -/
def parsePyFloat (cs : List Char) : Option ℚ :=
  let intPart := cs.takeWhile isDigitCh
  match cs.dropWhile isDigitCh with
  | [] => if intPart.isEmpty then none else some (digitsToNat intPart)
  | '.' :: frac =>
    if frac.all isDigitCh then
      if intPart.isEmpty && frac.isEmpty then none
      else some ((digitsToNat intPart : ℚ) + (digitsToNat frac : ℚ) / 10 ^ frac.length)
    else none
  | _ => none

/-- models.PDFExtractedData with its pydantic defaults.  Times are abstract
clock readings (Nat); optional floats are exact rationals. -/
structure PDFExtractedData where
  filename : List Char
  invoice_number : Option (List Char) := none
  customer_name : Option (List Char) := none
  customer_email : Option (List Char) := none
  order_date : Option (List Char) := none
  due_date : Option (List Char) := none
  total_amount : Option ℚ := none
  tax_amount : Option ℚ := none
  currency : Option (List Char) := some (strL "USD")
  items_description : Option (List Char) := none
  quantity : Option Int := none
  unit_price : Option ℚ := none
  billing_address : Option (List Char) := none
  shipping_address : Option (List Char) := none
  vendor_name : Option (List Char) := none
  payment_terms : Option (List Char) := none
  notes : Option (List Char) := none
  content_preview : List Char
  full_text : List Char := []
  date_extracted : Nat
deriving DecidableEq

/-- pdf_processor.process_pdf_content applied with model_class =
PDFExtractedData (every extracted key is a model field).  A failed float()
on the total token is caught by the try/except and the field stays unset.
The wall clock read by datetime.now() is the explicit argument now. -/
def process_pdf_content (text fname : List Char) (now : Nat) : PDFExtractedData :=
  { filename := fname,
    invoice_number := searchM matchInvoiceAt text,
    customer_email := searchM matchEmailAt text,
    order_date := searchM matchDateAt text,
    total_amount := (searchM matchTotalAt text).bind fun g => parsePyFloat (stripCommas g),
    currency := some (strL "USD"),
    content_preview := if text.isEmpty then strL "No content extracted" else text.take 200,
    full_text := text,
    date_extracted := now }

/-- main.extract_pdf_fields.  Identical regex logic, but the float() call on
the captured total token has no try/except here, so a token that fails
numeric conversion raises ValueError out of the function (Except.error). -/
def extract_pdf_fields (text fname : List Char) (now : Nat) :
    Except (List Char) PDFExtractedData :=
  let total? : Except (List Char) (Option ℚ) :=
    match searchM matchTotalAt text with
    | none => Except.ok none
    | some g =>
      match parsePyFloat (stripCommas g) with
      | some q => Except.ok (some q)
      | none => Except.error (strL "could not convert string to float")
  total?.map fun ta =>
    { filename := fname,
      invoice_number := searchM matchInvoiceAt text,
      customer_name := none,
      customer_email := searchM matchEmailAt text,
      order_date := searchM matchDateAt text,
      due_date := none,
      total_amount := ta,
      tax_amount := none,
      currency := some (strL "USD"),
      items_description := none,
      quantity := none,
      unit_price := none,
      billing_address := none,
      shipping_address := none,
      vendor_name := none,
      payment_terms := none,
      notes := none,
      content_preview := if text.isEmpty then strL "No content extracted" else text.take 200,
      full_text := text,
      date_extracted := now }

/-- Outcome of decoding a PDF text layer (the PyPDF2 page-text concatenation):
either the concatenated text or the exception message. -/
def PdfDecode : Type := Except (List Char) (List Char)

/-- pdf_processor.extract_pdf_from_file.  On decode success it runs the
configurable processor.  On decode failure the except-handler dereferences
the function-local name os, but the statement binding it (an os module
load placed inside the try, after the decode loop) has not executed, so the
handler itself raises UnboundLocalError: the function never returns its
intended error instance and the exception escapes to the caller. -/
def extract_pdf_from_file (decode : PdfDecode) (basename : List Char) (now : Nat) :
    Except (List Char) PDFExtractedData :=
  match decode with
  | Except.ok text => Except.ok (process_pdf_content text basename now)
  | Except.error _ =>
    Except.error (strL "UnboundLocalError: local variable os referenced before assignment")

/-- pdf_processor.extract_pdf_from_bytes: on decode failure it returns the
error instance (content_preview carries the message, full_text empty,
remaining fields take their pydantic defaults). -/
def extract_pdf_from_bytes (decode : PdfDecode) (fname : List Char) (now : Nat) :
    PDFExtractedData :=
  match decode with
  | Except.ok text => process_pdf_content text fname now
  | Except.error e =>
    { filename := fname,
      content_preview := strL "Error processing uploaded PDF: " ++ e,
      full_text := [],
      date_extracted := now }

/-- main.extract_pdf_data: its try block wraps both the decode and the call
to extract_pdf_fields, so a decode failure or a ValueError escaping
extract_pdf_fields is converted into the degraded error record. -/
def extract_pdf_data (decode : PdfDecode) (basename : List Char) (now : Nat) :
    PDFExtractedData :=
  match decode with
  | Except.ok text =>
    match extract_pdf_fields text basename now with
    | Except.ok r => r
    | Except.error e =>
      { filename := basename,
        content_preview := strL "Error processing PDF: " ++ e,
        full_text := [],
        date_extracted := now }
  | Except.error e =>
    { filename := basename,
      content_preview := strL "Error processing PDF: " ++ e,
      full_text := [],
      date_extracted := now }

/-- datetime.isoformat on the abstract clock reading, an injective textual
serialization (decimal digits stand in for the ISO text). -/
def isoformat (n : Nat) : List Char := Nat.toDigits 10 n

/-- A row of the pdf_extractions table (DatabaseManager.init_db).  The
surrogate autoincrement id is omitted (no claim mentions it); note the
schema has no full_text column.  created_at is the CURRENT_TIMESTAMP
default, date_extracted the TEXT column receiving isoformat. -/
structure PdfExtractionRow where
  filename : List Char
  invoice_number : Option (List Char)
  customer_name : Option (List Char)
  customer_email : Option (List Char)
  order_date : Option (List Char)
  due_date : Option (List Char)
  total_amount : Option ℚ
  tax_amount : Option ℚ
  currency : Option (List Char)
  items_description : Option (List Char)
  quantity : Option Int
  unit_price : Option ℚ
  billing_address : Option (List Char)
  shipping_address : Option (List Char)
  vendor_name : Option (List Char)
  payment_terms : Option (List Char)
  notes : Option (List Char)
  content_preview : List Char
  date_extracted : List Char
  created_at : Nat
deriving DecidableEq

/-- The row written by DatabaseManager.insert_pdf_data for a record: the
nineteen columns of its INSERT statement (full_text is not among them)
plus the creation timestamp added by the column default. -/
def extractionRowOf (d : PDFExtractedData) (createdAt : Nat) : PdfExtractionRow :=
  { filename := d.filename,
    invoice_number := d.invoice_number,
    customer_name := d.customer_name,
    customer_email := d.customer_email,
    order_date := d.order_date,
    due_date := d.due_date,
    total_amount := d.total_amount,
    tax_amount := d.tax_amount,
    currency := d.currency,
    items_description := d.items_description,
    quantity := d.quantity,
    unit_price := d.unit_price,
    billing_address := d.billing_address,
    shipping_address := d.shipping_address,
    vendor_name := d.vendor_name,
    payment_terms := d.payment_terms,
    notes := d.notes,
    content_preview := d.content_preview,
    date_extracted := isoformat d.date_extracted,
    created_at := createdAt }

/-- DatabaseManager.insert_pdf_data: INSERT OR REPLACE keyed on the UNIQUE
filename column.  SQLite deletes any row in conflict on filename and
inserts the new row; the method returns True on success. -/
def insert_pdf_data (d : PDFExtractedData) (createdAt : Nat) (tbl : List PdfExtractionRow) :
    Bool × List PdfExtractionRow :=
  (true, (tbl.filter fun r => !(r.filename == d.filename)) ++ [extractionRowOf d createdAt])

/-- Descending insertion by a Nat sort key (for ORDER BY key DESC). -/
def insertDescBy {α : Type} (key : α → Nat) (a : α) : List α → List α
  | [] => [a]
  | b :: t => if key b ≤ key a then a :: b :: t else b :: insertDescBy key a t

/-- ORDER BY key DESC. -/
def sortDescBy {α : Type} (key : α → Nat) : List α → List α
  | [] => []
  | a :: t => insertDescBy key a (sortDescBy key t)

/-- DatabaseManager.get_all_records: SELECT * FROM pdf_extractions ORDER BY
created_at DESC. -/
def get_all_records (tbl : List PdfExtractionRow) : List PdfExtractionRow :=
  sortDescBy (fun r => r.created_at) tbl

/-- A JSON scalar stored in a serialized record snapshot. -/
inductive JVal where
  | jstr : List Char → JVal
  | jnum : ℚ → JVal
  | jint : Int → JVal
  | jbool : Bool → JVal
deriving DecidableEq

/-- A row of the pending_orders table.  The pdf_data TEXT column holds the
JSON-serialized record; it is modelled by its decoded form, an ordered
key/value dictionary (serialization round-trips at the dict level). -/
structure PendingRow where
  id : Nat
  filename : List Char
  pdf_data : List (String × JVal)
  status : List Char
  created_at : Nat
  updated_at : Nat
deriving DecidableEq

/-- DatabaseManager.get_pending_orders: SELECT * FROM pending_orders WHERE
status = pending ORDER BY created_at DESC. -/
def get_pending_orders (tbl : List PendingRow) : List PendingRow :=
  sortDescBy (fun r => r.created_at) (tbl.filter fun r => r.status == strL "pending")

/-- DatabaseManager.update_pending_order: UPDATE pending_orders SET
pdf_data = ?, updated_at = CURRENT_TIMESTAMP WHERE id = ?; commits and
returns True whether or not any row matched. -/
def db_update_pending_order (tbl : List PendingRow) (order_id : Nat)
    (pdf_data : List (String × JVal)) (now : Nat) : Bool × List PendingRow :=
  (true,
   tbl.map fun r =>
     if r.id = order_id then { r with pdf_data := pdf_data, updated_at := now } else r)

/-- DatabaseManager.get_pending_count: SELECT COUNT(*) WHERE status = pending. -/
def get_pending_count (tbl : List PendingRow) : Nat :=
  (tbl.filter fun r => r.status == strL "pending").length

/-- One step of the endpoint merge loop: if key in pdf_data_dict and value
is not None then pdf_data_dict[key] = value (updating a dict key in place
preserves its position and never adds or removes keys). -/
def applyUpdate (acc : List (String × JVal)) (key : String) :
    Option JVal → List (String × JVal)
  | none => acc
  | some v =>
    if acc.any fun p => p.1 == key then
      acc.map fun p => if p.1 == key then (p.1, v) else p
    else acc

/-- The for key, value in update_data.items() loop of the PUT pending-order
endpoint over the decoded snapshot. -/
def mergeUpdates (snap : List (String × JVal)) (payload : List (String × Option JVal)) :
    List (String × JVal) :=
  payload.foldl (fun acc e => applyUpdate acc e.1 e.2) snap

/-- Association-list lookup on the decoded snapshot. -/
def lookupKey (k : String) : List (String × JVal) → Option JVal
  | [] => none
  | p :: t => if p.1 == k then some p.2 else lookupKey k t

/-- The PUT /api/pending/{order_id} endpoint (main.update_pending_order):
look the id up among the pending-status orders, answer 404 if absent,
otherwise merge the non-null payload keys that exist in the decoded
snapshot and store the result through the DatabaseManager. -/
def update_pending_order_endpoint (tbl : List PendingRow) (order_id : Nat)
    (payload : List (String × Option JVal)) (now : Nat) :
    Except Nat (List PendingRow) :=
  match (get_pending_orders tbl).find? (fun o => o.id == order_id) with
  | none => Except.error 404
  | some cur =>
    Except.ok (db_update_pending_order tbl order_id (mergeUpdates cur.pdf_data payload) now).2

/-- worker.py Celery configuration: task_max_retries. -/
def task_max_retries : Nat := 3

/-- worker.py Celery configuration: task_default_retry_delay, also the
explicit countdown passed to self.retry. -/
def task_default_retry_delay : Nat := 60

/-- Observable outcome of one execution attempt of the process_pdf task. -/
inductive TaskResult where
  | success : List Char → TaskResult
  | retryScheduled : Nat → Nat → TaskResult
  | terminalFailure : TaskResult
deriving DecidableEq

/-- worker.process_pdf_task, one attempt at the given retry count.  The
environment is the file-existence check, the decode outcome, and whether
the store reports success (DatabaseManager.insert_pdf_data returns False
when the database layer errors).  Any exception in the try body, including
the UnboundLocalError escaping extract_pdf_from_file on decode failure and
the exception raised when the store returns False, is caught and leads to
self.retry with countdown 60 while retries are below the maximum, and to a
terminal re-raise afterwards. -/
def process_pdf_task (retries : Nat) (fileExists : Bool) (decode : PdfDecode)
    (storeOk : Bool) (basename : List Char) (now : Nat) : TaskResult :=
  let attempt : Except (List Char) Unit :=
    if !fileExists then Except.error (strL "File not found")
    else
      match extract_pdf_from_file decode basename now with
      | Except.error e => Except.error e
      | Except.ok _ =>
        if storeOk then Except.ok ()
        else Except.error (strL "Failed to store PDF data in database")
  match attempt with
  | Except.ok _ => TaskResult.success basename
  | Except.error _ =>
    if retries < task_max_retries then
      TaskResult.retryScheduled task_default_retry_delay (retries + 1)
    else TaskResult.terminalFailure

/-- The head of the list, if any, fails the character class p. -/
def headNot (p : Char → Bool) : List Char → Bool
  | [] => true
  | c :: _ => !p c

/-- No match of the pattern matcher f starts at any position before n. -/
abbrev noMatchBefore (f : List Char → Option (List Char)) (text : List Char) (n : Nat) : Prop :=
  ∀ i < n, f (text.drop i) = none

/-- A record with its extraction timestamp scrubbed, to state clock-independence. -/
def eraseDate (r : PDFExtractedData) : PDFExtractedData := { r with date_extracted := 0 }

/-- The canonical text of the spec testable property behind claim C2. -/
def textC2 : List Char :=
  strL "Invoice #AB-123 Total: $1,234.56 jane@example.com 03/14/2024"

/-- A text containing the substring Invoice #AB-123 (followed by a further
token character) together with the three other canonical substrings. -/
def textC2ce : List Char :=
  strL "Invoice #AB-1234 Total: $1,234.56 jane@example.com 03/14/2024"

/-- Sample extracted record (first processing of the file). -/
def pdfDataA : PDFExtractedData :=
  { filename := strL "inv1.pdf",
    content_preview := strL "first version",
    full_text := strL "first version text",
    date_extracted := 10 }

/-- Sample extracted record (second processing of the same file, different content). -/
def pdfDataB : PDFExtractedData :=
  { filename := strL "inv1.pdf",
    invoice_number := some (strL "B-9"),
    content_preview := strL "second version",
    full_text := strL "second version text",
    date_extracted := 20 }

/-- A record whose full_text is the given list, all else fixed. -/
def fullTextProbe (ft : List Char) : PDFExtractedData :=
  { filename := strL "a.pdf",
    content_preview := strL "preview",
    full_text := ft,
    date_extracted := 3 }

/-- Sample decoded snapshot of a pending order. -/
def snapW : List (String × JVal) :=
  [("invoice_number", JVal.jstr (strL "A-1")),
   ("customer_name", JVal.jstr (strL "Ann")),
   ("notes", JVal.jstr (strL "old"))]

/-- Sample update payload: one overwriting key, one null key, one unknown key. -/
def payloadW : List (String × Option JVal) :=
  [("invoice_number", some (JVal.jstr (strL "B-2"))),
   ("customer_name", none),
   ("unknown_key", some (JVal.jstr (strL "zzz")))]

/-- Sample pending-order row holding snapW. -/
def pendingRowW : PendingRow :=
  { id := 1, filename := strL "a.pdf", pdf_data := snapW,
    status := strL "pending", created_at := 4, updated_at := 4 }

theorem takeWhile_nil_of_headNot (p : Char → Bool) (l : List Char)
    (h : headNot p l = true) : l.takeWhile p = [] := by
  cases l with
  | nil => rfl
  | cons c t =>
    have hc : p c = false := by simpa [headNot] using h
    simp [List.takeWhile_cons, hc]

theorem takeWhile_append_of_all (p : Char → Bool) (l₁ l₂ : List Char)
    (h : ∀ c ∈ l₁, p c = true) : (l₁ ++ l₂).takeWhile p = l₁ ++ l₂.takeWhile p := by
  induction l₁ with
  | nil => rfl
  | cons c t ih =>
    have hc : p c = true := h c (List.mem_cons_self c t)
    have ih2 := ih fun x hx => h x (List.mem_cons_of_mem c hx)
    simp [List.takeWhile_cons, hc, ih2]

/-- searchM finds the match at the start of rest when no position inside p
matches: leftmost-match characterisation used for all four patterns. -/
theorem searchM_append (f : List Char → Option (List Char)) (p rest g : List Char)
    (hn : ∀ i < p.length, f ((p ++ rest).drop i) = none)
    (hr : f rest = some g) : searchM f (p ++ rest) = some g := by
  induction p with
  | nil =>
    cases rest with
    | nil => simpa [searchM] using hr
    | cons c t => simp [searchM, hr]
  | cons c t ih =>
    have h0 : f (c :: (t ++ rest)) = none := by
      have h := hn 0 (by simp)
      simpa using h
    rw [List.cons_append]
    have hstep : searchM f (c :: (t ++ rest)) = searchM f (t ++ rest) := by
      simp [searchM, h0]
    rw [hstep]
    refine ih fun i hi => ?_
    have h := hn (i + 1) (by simpa using Nat.succ_lt_succ hi)
    simpa using h

theorem matchInvoiceAt_hit (s : List Char) (hs : headNot isInvTok s = true) :
    matchInvoiceAt (strL "Invoice #AB-123" ++ s) = some (strL "AB-123") := by
  have h1 : s.takeWhile isInvTok = [] := takeWhile_nil_of_headNot isInvTok s hs
  show some ('A' :: 'B' :: '-' :: '1' :: '2' :: '3' :: s.takeWhile isInvTok)
      = some (strL "AB-123")
  rw [h1]
  rfl

theorem matchTotalAt_hit (s : List Char) (hs : headNot isDigitCh s = true) :
    matchTotalAt (strL "Total: $1,234.56" ++ s) = some (strL "1,234.56") := by
  have h1 : s.takeWhile isDigitCh = [] := takeWhile_nil_of_headNot isDigitCh s hs
  show some ('1' :: ',' :: '2' :: '3' :: '4' :: '.' :: '5' :: '6' :: s.takeWhile isDigitCh)
      = some (strL "1,234.56")
  rw [h1]
  rfl

theorem matchEmailAt_hit (s : List Char) (hs : headNot isDomainCh s = true) :
    matchEmailAt (strL "jane@example.com" ++ s) = some (strL "jane@example.com") := by
  have h1 : (strL "example.com" ++ s).takeWhile isDomainCh = strL "example.com" := by
    rw [takeWhile_append_of_all isDomainCh (strL "example.com") s (by decide),
      takeWhile_nil_of_headNot isDomainCh s hs, List.append_nil]
  show (match bestDot ((strL "example.com" ++ s).takeWhile isDomainCh) with
        | some m =>
          some ('j' :: 'a' :: 'n' :: 'e' :: '@' ::
            ((((strL "example.com" ++ s).takeWhile isDomainCh).take m)
              ++ '.' :: ((((strL "example.com" ++ s).takeWhile isDomainCh).drop (m + 1)).takeWhile isAlphaCh)))
        | none => none)
      = some (strL "jane@example.com")
  rw [h1]
  decide

theorem matchDateAt_hit (s : List Char) :
    matchDateAt (strL "03/14/2024" ++ s) = some (strL "03/14/2024") := rfl

theorem parse_total_canonical :
    parsePyFloat (stripCommas (strL "1,234.56")) = some (1234.56 : ℚ) := by
  have hstrip : stripCommas (strL "1,234.56") = strL "1234.56" := by decide
  rw [hstrip]
  show some ((digitsToNat (strL "1234") : ℚ) + (digitsToNat (strL "56") : ℚ) / 10 ^ (strL "56").length)
      = some (1234.56 : ℚ)
  have hd1 : digitsToNat (strL "1234") = 1234 := by decide
  have hd2 : digitsToNat (strL "56") = 56 := by decide
  have hl : (strL "56").length = 2 := by decide
  rw [hd1, hd2, hl]
  have key : ((1234 : ℕ) : ℚ) + ((56 : ℕ) : ℚ) / 10 ^ 2 = (1234.56 : ℚ) := by norm_num
  rw [key]

/-- When the total token parses, main.extract_pdf_fields returns exactly the
record of pdf_processor.process_pdf_content. -/
theorem extract_pdf_fields_eq_ok (text fname : List Char) (now : Nat) (g : List Char) (q : ℚ)
    (hg : searchM matchTotalAt text = some g)
    (hq : parsePyFloat (stripCommas g) = some q) :
    extract_pdf_fields text fname now = Except.ok (process_pdf_content text fname now) := by
  simp [extract_pdf_fields, process_pdf_content, hg, hq]
  rfl

/-- C2 (amended): for every text containing the substrings Invoice #AB-123,
Total: $1,234.56, jane@example.com and 03/14/2024, with no earlier match of
the respective patterns, and where each of the first three occurrences is
not immediately followed by a character that would extend its match (an
invoice-token character, a digit, a domain character respectively; nothing
can extend the date match), the field extractors return invoice_number
AB-123, total_amount 1234.56, customer_email jane@example.com, order_date
03/14/2024 and currency USD, and main.extract_pdf_fields returns exactly
the record produced by pdf_processor.process_pdf_content. -/
theorem extractor_canonical_text_fields
    (text p₁ s₁ p₂ s₂ p₃ s₃ p₄ s₄ fname : List Char) (now : Nat)
    (h₁ : text = p₁ ++ (strL "Invoice #AB-123" ++ s₁))
    (h₁n : noMatchBefore matchInvoiceAt text p₁.length)
    (h₁e : headNot isInvTok s₁ = true)
    (h₂ : text = p₂ ++ (strL "Total: $1,234.56" ++ s₂))
    (h₂n : noMatchBefore matchTotalAt text p₂.length)
    (h₂e : headNot isDigitCh s₂ = true)
    (h₃ : text = p₃ ++ (strL "jane@example.com" ++ s₃))
    (h₃n : noMatchBefore matchEmailAt text p₃.length)
    (h₃e : headNot isDomainCh s₃ = true)
    (h₄ : text = p₄ ++ (strL "03/14/2024" ++ s₄))
    (h₄n : noMatchBefore matchDateAt text p₄.length) :
    (process_pdf_content text fname now).invoice_number = some (strL "AB-123") ∧
    (process_pdf_content text fname now).total_amount = some (1234.56 : ℚ) ∧
    (process_pdf_content text fname now).customer_email = some (strL "jane@example.com") ∧
    (process_pdf_content text fname now).order_date = some (strL "03/14/2024") ∧
    (process_pdf_content text fname now).currency = some (strL "USD") ∧
    extract_pdf_fields text fname now = Except.ok (process_pdf_content text fname now) := by
  have e1 : searchM matchInvoiceAt text = some (strL "AB-123") := by
    rw [h₁]
    refine searchM_append matchInvoiceAt p₁ (strL "Invoice #AB-123" ++ s₁) (strL "AB-123")
      ?_ (matchInvoiceAt_hit s₁ h₁e)
    intro i hi
    have h := h₁n i hi
    rw [h₁] at h
    exact h
  have e2 : searchM matchTotalAt text = some (strL "1,234.56") := by
    rw [h₂]
    refine searchM_append matchTotalAt p₂ (strL "Total: $1,234.56" ++ s₂) (strL "1,234.56")
      ?_ (matchTotalAt_hit s₂ h₂e)
    intro i hi
    have h := h₂n i hi
    rw [h₂] at h
    exact h
  have e3 : searchM matchEmailAt text = some (strL "jane@example.com") := by
    rw [h₃]
    refine searchM_append matchEmailAt p₃ (strL "jane@example.com" ++ s₃) (strL "jane@example.com")
      ?_ (matchEmailAt_hit s₃ h₃e)
    intro i hi
    have h := h₃n i hi
    rw [h₃] at h
    exact h
  have e4 : searchM matchDateAt text = some (strL "03/14/2024") := by
    rw [h₄]
    refine searchM_append matchDateAt p₄ (strL "03/14/2024" ++ s₄) (strL "03/14/2024")
      ?_ (matchDateAt_hit s₄)
    intro i hi
    have h := h₄n i hi
    rw [h₄] at h
    exact h
  refine ⟨?_, ?_, ?_, ?_, rfl, ?_⟩
  · simpa [process_pdf_content] using e1
  · simp only [process_pdf_content]
    rw [e2, Option.some_bind, parse_total_canonical]
  · simpa [process_pdf_content] using e3
  · simpa [process_pdf_content] using e4
  · exact extract_pdf_fields_eq_ok text fname now (strL "1,234.56") (1234.56 : ℚ)
      e2 parse_total_canonical

/-- Witness for C2: the amended theorem applied to the canonical text at
concrete decompositions, every hypothesis checked by evaluation. -/
theorem extractor_canonical_text_fields_witness :
    (process_pdf_content textC2 (strL "doc.pdf") 7).invoice_number = some (strL "AB-123") ∧
    (process_pdf_content textC2 (strL "doc.pdf") 7).total_amount = some (1234.56 : ℚ) ∧
    (process_pdf_content textC2 (strL "doc.pdf") 7).customer_email = some (strL "jane@example.com") ∧
    (process_pdf_content textC2 (strL "doc.pdf") 7).order_date = some (strL "03/14/2024") ∧
    (process_pdf_content textC2 (strL "doc.pdf") 7).currency = some (strL "USD") ∧
    extract_pdf_fields textC2 (strL "doc.pdf") 7
      = Except.ok (process_pdf_content textC2 (strL "doc.pdf") 7) :=
  extractor_canonical_text_fields textC2
    (strL "") (strL " Total: $1,234.56 jane@example.com 03/14/2024")
    (strL "Invoice #AB-123 ") (strL " jane@example.com 03/14/2024")
    (strL "Invoice #AB-123 Total: $1,234.56 ") (strL " 03/14/2024")
    (strL "Invoice #AB-123 Total: $1,234.56 jane@example.com ") (strL "")
    (strL "doc.pdf") 7
    (by decide) (by decide) (by decide)
    (by decide) (by decide) (by decide)
    (by decide) (by decide) (by decide)
    (by decide) (by decide)

/-- Counterexample to C2 as stated: textC2ce contains all four substrings,
with no earlier match of the respective patterns, yet the extracted
invoice_number is AB-1234, not AB-123 — because the character following
the substring occurrence extends the greedy token group. -/
theorem extractor_canonical_text_counterexample :
    textC2ce = strL "" ++ (strL "Invoice #AB-123"
      ++ strL "4 Total: $1,234.56 jane@example.com 03/14/2024") ∧
    noMatchBefore matchInvoiceAt textC2ce 0 ∧
    textC2ce = strL "Invoice #AB-1234 " ++ (strL "Total: $1,234.56"
      ++ strL " jane@example.com 03/14/2024") ∧
    noMatchBefore matchTotalAt textC2ce 17 ∧
    textC2ce = strL "Invoice #AB-1234 Total: $1,234.56 " ++ (strL "jane@example.com"
      ++ strL " 03/14/2024") ∧
    noMatchBefore matchEmailAt textC2ce 34 ∧
    textC2ce = strL "Invoice #AB-1234 Total: $1,234.56 jane@example.com "
      ++ (strL "03/14/2024" ++ strL "") ∧
    noMatchBefore matchDateAt textC2ce 51 ∧
    (process_pdf_content textC2ce (strL "doc.pdf") 0).invoice_number = some (strL "AB-1234") ∧
    some (strL "AB-1234") ≠ some (strL "AB-123") := by
  exact ⟨by decide, by decide, by decide, by decide, by decide, by decide, by decide,
    by decide, by decide, by decide⟩

/-- Counterexample to C4 as stated: the extractor reads the wall clock for
date_extracted, so two calls with the same (text, filename) at different
instants yield records that are not identical. -/
theorem extractor_clock_counterexample :
    process_pdf_content (strL "x") (strL "a.pdf") 0
      ≠ process_pdf_content (strL "x") (strL "a.pdf") 1 ∧
    (process_pdf_content (strL "x") (strL "a.pdf") 0).date_extracted
      ≠ (process_pdf_content (strL "x") (strL "a.pdf") 1).date_extracted := by
  exact ⟨by decide, by decide⟩

/-- C4 (amended): both extractors are pure, deterministic functions of
(text, filename, clock reading): all fields other than date_extracted
depend only on text and filename, date_extracted equals the clock reading
at the call, and two calls at the same instant give identical records. -/
theorem extractor_deterministic_modulo_clock (text fname : List Char) (n m : Nat) :
    eraseDate (process_pdf_content text fname n) = eraseDate (process_pdf_content text fname m) ∧
    (process_pdf_content text fname n).date_extracted = n ∧
    process_pdf_content text fname n = process_pdf_content text fname n ∧
    (extract_pdf_fields text fname n).map eraseDate
      = (extract_pdf_fields text fname m).map eraseDate := by
  refine ⟨rfl, rfl, rfl, ?_⟩
  simp only [extract_pdf_fields]
  have key : ∀ (f₁ f₂ : Option ℚ → PDFExtractedData) (X : Except (List Char) (Option ℚ)),
      (∀ ta, eraseDate (f₁ ta) = eraseDate (f₂ ta)) →
      Except.map eraseDate (Except.map f₁ X) = Except.map eraseDate (Except.map f₂ X) := by
    intro f₁ f₂ X hf
    cases X with
    | error e => rfl
    | ok a =>
      show Except.ok (eraseDate (f₁ a)) = Except.ok (eraseDate (f₂ a))
      rw [hf a]
  exact key _ _ _ fun ta => rfl

theorem upsert_countP (d : PDFExtractedData) (ts : Nat) (tbl : List PdfExtractionRow) :
    List.countP (fun r => r.filename == d.filename) (insert_pdf_data d ts tbl).2 = 1 := by
  unfold insert_pdf_data
  rw [List.countP_append]
  have h0 : List.countP (fun r => r.filename == d.filename)
      (tbl.filter fun r => !(r.filename == d.filename)) = 0 := by
    refine List.countP_eq_zero.mpr ?_
    intro r hr
    have h := (List.mem_filter.mp hr).2
    simpa using h
  have h1 : List.countP (fun r => r.filename == d.filename) [extractionRowOf d ts] = 1 := by
    simp [extractionRowOf]
  rw [h0, h1]

/-- C1: the extractions store keeps at most one record per filename: after
the store effects of two jobs for the same filename with different content,
in either completion order, exactly one row for that filename remains
(INSERT OR REPLACE on the UNIQUE filename column). -/
theorem upsert_single_record_per_filename (tbl : List PdfExtractionRow)
    (d₁ d₂ : PDFExtractedData) (ts₁ ts₂ : Nat) (h : d₁.filename = d₂.filename) :
    List.countP (fun r => r.filename == d₂.filename)
      (insert_pdf_data d₂ ts₂ (insert_pdf_data d₁ ts₁ tbl).2).2 = 1 ∧
    List.countP (fun r => r.filename == d₂.filename)
      (insert_pdf_data d₁ ts₁ (insert_pdf_data d₂ ts₂ tbl).2).2 = 1 := by
  constructor
  · exact upsert_countP d₂ ts₂ _
  · rw [← h]
    exact upsert_countP d₁ ts₁ _

/-- Witness for C1: two concrete jobs for inv1.pdf with different content,
both orders, each leaving exactly one row. -/
theorem upsert_single_record_per_filename_witness :
    List.countP (fun r => r.filename == pdfDataB.filename)
      (insert_pdf_data pdfDataB 2 (insert_pdf_data pdfDataA 1 []).2).2 = 1 ∧
    List.countP (fun r => r.filename == pdfDataB.filename)
      (insert_pdf_data pdfDataA 1 (insert_pdf_data pdfDataB 2 []).2).2 = 1 :=
  upsert_single_record_per_filename [] pdfDataA pdfDataB 1 2 (by decide)

/-- C3: evaluation of the text-extraction entry points on a failed decode.
pdf_processor.extract_pdf_from_file raises (UnboundLocalError from its own
except-handler) instead of returning an error record, contradicting the
claim; main.extract_pdf_data and pdf_processor.extract_pdf_from_bytes do
return the degraded record with the error description in content_preview
and empty full_text. -/
theorem decode_failure_entry_points :
    extract_pdf_from_file (Except.error (strL "No such file or directory")) (strL "missing.pdf") 3
      = Except.error (strL "UnboundLocalError: local variable os referenced before assignment") ∧
    extract_pdf_data (Except.error (strL "EOF marker not found")) (strL "bad.pdf") 3
      = { filename := strL "bad.pdf",
          content_preview := strL "Error processing PDF: EOF marker not found",
          full_text := [], date_extracted := 3 } ∧
    (extract_pdf_data (Except.error (strL "EOF marker not found")) (strL "bad.pdf") 3).full_text
      = [] ∧
    extract_pdf_from_bytes (Except.error (strL "EOF marker not found")) (strL "up.pdf") 3
      = { filename := strL "up.pdf",
          content_preview := strL "Error processing uploaded PDF: EOF marker not found",
          full_text := [], date_extracted := 3 } := by
  exact ⟨rfl, rfl, rfl, rfl⟩

/-- C5: evaluation at a text whose total token is all commas, so float()
fails.  The configurable processor leaves total_amount null and returns
normally, as the claim states; main.extract_pdf_fields instead raises the
ValueError (no try/except around float() there), contradicting the claim
for that extractor. -/
theorem comma_total_parse_failure :
    searchM matchTotalAt (strL "Total: ,,") = some (strL ",,") ∧
    parsePyFloat (stripCommas (strL ",,")) = none ∧
    (process_pdf_content (strL "Total: ,,") (strL "f.pdf") 2).total_amount = none ∧
    extract_pdf_fields (strL "Total: ,,") (strL "f.pdf") 2
      = Except.error (strL "could not convert string to float") := by
  exact ⟨rfl, rfl, rfl, rfl⟩

/-- C6: evaluation of the worker task.  A persistence failure is retried
with the fixed 60-unit countdown at retry counts 0, 1 and 2 and becomes a
terminal failure at 3 — at most 3 retries, as the claim states.  But a
path-based job whose decode fails also enters the retry path (because
extract_pdf_from_file raises instead of returning a degraded record) and
ends in terminal failure with nothing stored, contradicting the claim. -/
theorem worker_retry_behaviour :
    process_pdf_task 0 true (Except.ok (strL "hello")) false (strL "c.pdf") 0
      = TaskResult.retryScheduled 60 1 ∧
    process_pdf_task 1 true (Except.ok (strL "hello")) false (strL "c.pdf") 0
      = TaskResult.retryScheduled 60 2 ∧
    process_pdf_task 2 true (Except.ok (strL "hello")) false (strL "c.pdf") 0
      = TaskResult.retryScheduled 60 3 ∧
    process_pdf_task 3 true (Except.ok (strL "hello")) false (strL "c.pdf") 0
      = TaskResult.terminalFailure ∧
    process_pdf_task 0 true (Except.ok (strL "hello")) true (strL "c.pdf") 0
      = TaskResult.success (strL "c.pdf") ∧
    process_pdf_task 0 true (Except.error (strL "EOF marker not found")) true (strL "c.pdf") 0
      = TaskResult.retryScheduled 60 1 ∧
    process_pdf_task 3 true (Except.error (strL "EOF marker not found")) true (strL "c.pdf") 0
      = TaskResult.terminalFailure := by
  exact ⟨rfl, rfl, rfl, rfl, rfl, rfl, rfl⟩

theorem mem_insertDescBy {α : Type} (key : α → Nat) (a x : α) (l : List α) :
    x ∈ insertDescBy key a l ↔ x = a ∨ x ∈ l := by
  induction l with
  | nil => simp [insertDescBy]
  | cons b t ih =>
    by_cases hb : key b ≤ key a
    · simp [insertDescBy, hb]
    · simp only [insertDescBy, if_neg hb, List.mem_cons, ih]
      tauto

theorem mem_sortDescBy {α : Type} (key : α → Nat) (x : α) (l : List α) :
    x ∈ sortDescBy key l ↔ x ∈ l := by
  induction l with
  | nil => simp [sortDescBy]
  | cons a t ih => simp [sortDescBy, mem_insertDescBy, ih]

/-- C7 (amended): after upsert the stored row is readable back through
get_all_records, and it carries every section-3 record field except
full_text (which has no column in the pdf_extractions schema and is not
persisted), with date_extracted serialized to its ISO string and the
creation timestamp alongside. -/
theorem upsert_roundtrip_preserves_fields (d : PDFExtractedData) (ts : Nat)
    (tbl : List PdfExtractionRow) :
    extractionRowOf d ts ∈ get_all_records (insert_pdf_data d ts tbl).2 ∧
    (extractionRowOf d ts).filename = d.filename ∧
    (extractionRowOf d ts).invoice_number = d.invoice_number ∧
    (extractionRowOf d ts).customer_name = d.customer_name ∧
    (extractionRowOf d ts).customer_email = d.customer_email ∧
    (extractionRowOf d ts).order_date = d.order_date ∧
    (extractionRowOf d ts).due_date = d.due_date ∧
    (extractionRowOf d ts).total_amount = d.total_amount ∧
    (extractionRowOf d ts).tax_amount = d.tax_amount ∧
    (extractionRowOf d ts).currency = d.currency ∧
    (extractionRowOf d ts).items_description = d.items_description ∧
    (extractionRowOf d ts).quantity = d.quantity ∧
    (extractionRowOf d ts).unit_price = d.unit_price ∧
    (extractionRowOf d ts).billing_address = d.billing_address ∧
    (extractionRowOf d ts).shipping_address = d.shipping_address ∧
    (extractionRowOf d ts).vendor_name = d.vendor_name ∧
    (extractionRowOf d ts).payment_terms = d.payment_terms ∧
    (extractionRowOf d ts).notes = d.notes ∧
    (extractionRowOf d ts).content_preview = d.content_preview ∧
    (extractionRowOf d ts).date_extracted = isoformat d.date_extracted ∧
    (extractionRowOf d ts).created_at = ts := by
  refine ⟨?_, rfl, rfl, rfl, rfl, rfl, rfl, rfl, rfl, rfl, rfl, rfl, rfl, rfl, rfl, rfl,
    rfl, rfl, rfl, rfl, rfl⟩
  rw [get_all_records, mem_sortDescBy]
  unfold insert_pdf_data
  simp

/-- Counterexample to C7 as stated: two records that differ exactly in
full_text produce the same stored row, and the whole readable store state
after their upserts is identical — full_text does not survive the round
trip through the pdf_extractions table. -/
theorem upsert_roundtrip_counterexample :
    fullTextProbe (strL "the full document text") ≠ fullTextProbe (strL "") ∧
    (fullTextProbe (strL "the full document text")).full_text
      ≠ (fullTextProbe (strL "")).full_text ∧
    extractionRowOf (fullTextProbe (strL "the full document text")) 5
      = extractionRowOf (fullTextProbe (strL "")) 5 ∧
    get_all_records (insert_pdf_data (fullTextProbe (strL "the full document text")) 5 []).2
      = get_all_records (insert_pdf_data (fullTextProbe (strL "")) 5 []).2 := by
  exact ⟨by decide, by decide, by decide, by decide⟩

theorem anyKey_map_update (acc : List (String × JVal)) (k k0 : String) (v : JVal) :
    ((acc.map fun p => if p.1 == k0 then (p.1, v) else p).any fun p => p.1 == k)
      = (acc.any fun p => p.1 == k) := by
  induction acc with
  | nil => rfl
  | cons p t ih =>
    have hfst : ((if p.1 == k0 then (p.1, v) else p) : String × JVal).1 = p.1 := by
      by_cases h : (p.1 == k0) = true
      · rw [if_pos h]
      · rw [if_neg h]
    rw [List.map_cons, List.any_cons, List.any_cons, hfst, ih]

theorem anyKey_applyUpdate (acc : List (String × JVal)) (k0 : String) (val : Option JVal)
    (k : String) :
    ((applyUpdate acc k0 val).any fun p => p.1 == k) = (acc.any fun p => p.1 == k) := by
  cases val with
  | none => rfl
  | some v =>
    show ((if acc.any (fun p => p.1 == k0) then
        acc.map fun p => if p.1 == k0 then (p.1, v) else p else acc).any fun p => p.1 == k)
      = (acc.any fun p => p.1 == k)
    by_cases h : (acc.any fun p => p.1 == k0) = true
    · rw [if_pos h, anyKey_map_update]
    · rw [if_neg h]

theorem lookupKey_map_update_self (acc : List (String × JVal)) (k : String) (v : JVal)
    (h : (acc.any fun p => p.1 == k) = true) :
    lookupKey k (acc.map fun p => if p.1 == k then (p.1, v) else p) = some v := by
  induction acc with
  | nil => simp at h
  | cons p t ih =>
    rw [List.map_cons]
    by_cases hp : (p.1 == k) = true
    · rw [if_pos hp]
      show (if p.1 == k then some v
          else lookupKey k (t.map fun p => if p.1 == k then (p.1, v) else p)) = some v
      rw [if_pos hp]
    · rw [if_neg hp]
      show (if p.1 == k then some p.2
          else lookupKey k (t.map fun p => if p.1 == k then (p.1, v) else p)) = some v
      rw [if_neg hp]
      have hpf : (p.1 == k) = false := by
        cases hb : (p.1 == k) with
        | true => exact absurd hb hp
        | false => rfl
      have ht : (t.any fun p => p.1 == k) = true := by
        rw [List.any_cons, hpf, Bool.false_or] at h
        exact h
      exact ih ht

theorem lookupKey_map_update_ne (acc : List (String × JVal)) (k0 k : String) (v : JVal)
    (hk : (k0 == k) = false) :
    lookupKey k (acc.map fun p => if p.1 == k0 then (p.1, v) else p) = lookupKey k acc := by
  induction acc with
  | nil => rfl
  | cons p t ih =>
    rw [List.map_cons]
    by_cases hp : (p.1 == k0) = true
    · have hp1 : p.1 = k0 := eq_of_beq hp
      have hpk : ¬((p.1 == k) = true) := by rw [hp1, hk]; exact Bool.false_ne_true
      rw [if_pos hp]
      show (if p.1 == k then some v
            else lookupKey k (t.map fun p => if p.1 == k0 then (p.1, v) else p))
          = (if p.1 == k then some p.2 else lookupKey k t)
      rw [if_neg hpk, if_neg hpk, ih]
    · rw [if_neg hp]
      show (if p.1 == k then some p.2
            else lookupKey k (t.map fun p => if p.1 == k0 then (p.1, v) else p))
          = (if p.1 == k then some p.2 else lookupKey k t)
      rw [ih]

theorem lookupKey_applyUpdate_ne (acc : List (String × JVal)) (k0 : String)
    (val : Option JVal) (k : String) (hk : (k0 == k) = false) :
    lookupKey k (applyUpdate acc k0 val) = lookupKey k acc := by
  cases val with
  | none => rfl
  | some v =>
    show lookupKey k (if acc.any (fun p => p.1 == k0) then
        acc.map fun p => if p.1 == k0 then (p.1, v) else p else acc) = lookupKey k acc
    by_cases h : (acc.any fun p => p.1 == k0) = true
    · rw [if_pos h]
      exact lookupKey_map_update_ne acc k0 k v hk
    · rw [if_neg h]

theorem lookupKey_applyUpdate_self (acc : List (String × JVal)) (k : String) (v : JVal)
    (h : (acc.any fun p => p.1 == k) = true) :
    lookupKey k (applyUpdate acc k (some v)) = some v := by
  show lookupKey k (if acc.any (fun p => p.1 == k) then
      acc.map fun p => if p.1 == k then (p.1, v) else p else acc) = some v
  rw [if_pos h]
  exact lookupKey_map_update_self acc k v h

theorem lookupKey_mergeUpdates_ne (payload : List (String × Option JVal)) :
    ∀ (snap : List (String × JVal)) (k : String),
      (∀ e ∈ payload, (e.1 == k) = false) →
      lookupKey k (mergeUpdates snap payload) = lookupKey k snap := by
  induction payload with
  | nil => intro snap k _; rfl
  | cons e rest ih =>
    intro snap k h
    show lookupKey k (mergeUpdates (applyUpdate snap e.1 e.2) rest) = lookupKey k snap
    rw [ih (applyUpdate snap e.1 e.2) k fun x hx => h x (List.mem_cons_of_mem e hx)]
    exact lookupKey_applyUpdate_ne snap e.1 e.2 k (h e (List.mem_cons_self e rest))

/-- The merged snapshot maps every key updated with a non-null payload value
to that value (payload keys are unique: Python dict). -/
theorem lookupKey_mergeUpdates_mem (payload : List (String × Option JVal)) :
    ∀ (snap : List (String × JVal)) (k : String) (v : JVal),
      (payload.map Prod.fst).Nodup → (k, some v) ∈ payload →
      (snap.any fun p => p.1 == k) = true →
      lookupKey k (mergeUpdates snap payload) = some v := by
  induction payload with
  | nil => intro snap k v _ hmem _; simp at hmem
  | cons e rest ih =>
    intro snap k v hnd hmem hkey
    rw [List.map_cons, List.nodup_cons] at hnd
    rcases List.mem_cons.mp hmem with heq | hrest
    · subst heq
      have hk2 : ∀ x ∈ rest, (x.1 == k) = false := by
        intro x hx
        have hx1 : x.1 ∈ rest.map Prod.fst := List.mem_map_of_mem Prod.fst hx
        have hnk : k ∉ rest.map Prod.fst := by simpa using hnd.1
        by_contra hb
        have hb2 : x.1 = k := by simpa using hb
        rw [hb2] at hx1
        exact hnk hx1
      show lookupKey k (mergeUpdates (applyUpdate snap k (some v)) rest) = some v
      rw [lookupKey_mergeUpdates_ne rest (applyUpdate snap k (some v)) k hk2]
      exact lookupKey_applyUpdate_self snap k v hkey
    · show lookupKey k (mergeUpdates (applyUpdate snap e.1 e.2) rest) = some v
      refine ih (applyUpdate snap e.1 e.2) k v hnd.2 hrest ?_
      rw [anyKey_applyUpdate]
      exact hkey

/-- Keys whose payload entries are all null (or absent) keep their original
snapshot value through the merge. -/
theorem lookupKey_mergeUpdates_null (payload : List (String × Option JVal)) :
    ∀ (snap : List (String × JVal)) (k : String),
      (∀ e ∈ payload, e.1 = k → e.2 = none) →
      lookupKey k (mergeUpdates snap payload) = lookupKey k snap := by
  induction payload with
  | nil => intro snap k _; rfl
  | cons e rest ih =>
    intro snap k h
    show lookupKey k (mergeUpdates (applyUpdate snap e.1 e.2) rest) = lookupKey k snap
    rw [ih (applyUpdate snap e.1 e.2) k fun x hx hxk => h x (List.mem_cons_of_mem e hx) hxk]
    by_cases hek : (e.1 == k) = true
    · have he1 : e.1 = k := eq_of_beq hek
      have he2 : e.2 = none := h e (List.mem_cons_self e rest) he1
      rw [he2]
      rfl
    · have hf : (e.1 == k) = false := by simpa using hek
      exact lookupKey_applyUpdate_ne snap e.1 e.2 k hf

/-- C8: for an update of a pending order by id, exactly the payload keys
that name a field of the stored snapshot and carry a non-null value
overwrite that snapshot field, keys absent or null leave the field
untouched, an unknown id yields the distinct 404 result, and a found id
stores the merged snapshot. -/
theorem update_pending_merge_semantics (tbl : List PendingRow) (oid : Nat)
    (payload : List (String × Option JVal)) (now : Nat)
    (snap : List (String × JVal)) (k : String) (v : JVal)
    (hnd : (payload.map Prod.fst).Nodup)
    (hmem : (k, some v) ∈ payload)
    (hkey : (snap.any fun p => p.1 == k) = true) :
    ((∀ o ∈ tbl, o.status = strL "pending" → o.id ≠ oid) →
      update_pending_order_endpoint tbl oid payload now = Except.error 404) ∧
    lookupKey k (mergeUpdates snap payload) = some v ∧
    (∀ k2 : String, (∀ e ∈ payload, e.1 = k2 → e.2 = none) →
      lookupKey k2 (mergeUpdates snap payload) = lookupKey k2 snap) ∧
    (∀ cur : PendingRow, (get_pending_orders tbl).find? (fun o => o.id == oid) = some cur →
      update_pending_order_endpoint tbl oid payload now
        = Except.ok (db_update_pending_order tbl oid (mergeUpdates cur.pdf_data payload) now).2) := by
  refine ⟨?_, lookupKey_mergeUpdates_mem payload snap k v hnd hmem hkey,
    fun k2 h2 => lookupKey_mergeUpdates_null payload snap k2 h2, ?_⟩
  · intro h404
    have hfind : (get_pending_orders tbl).find? (fun o => o.id == oid) = none := by
      rw [List.find?_eq_none]
      intro o ho
      have ho2 : o ∈ tbl.filter fun r => r.status == strL "pending" := by
        have ho3 : o ∈ sortDescBy (fun r : PendingRow => r.created_at)
            (tbl.filter fun r => r.status == strL "pending") := ho
        exact (mem_sortDescBy _ o _).mp ho3
      obtain ⟨hmem2, hst⟩ := List.mem_filter.mp ho2
      have hst2 : o.status = strL "pending" := eq_of_beq hst
      intro hb
      exact h404 o hmem2 hst2 (eq_of_beq hb)
    unfold update_pending_order_endpoint
    rw [hfind]
  · intro cur hcur
    unfold update_pending_order_endpoint
    rw [hcur]

/-- Witness for C8: a one-row pending table; an unknown id answers 404, the
non-null payload key overwrites, the null key is untouched, and the known
id stores the merged snapshot. -/
theorem update_pending_merge_semantics_witness :
    update_pending_order_endpoint [pendingRowW] 9 payloadW 8 = Except.error 404 ∧
    lookupKey "invoice_number" (mergeUpdates snapW payloadW)
      = some (JVal.jstr (strL "B-2")) ∧
    lookupKey "customer_name" (mergeUpdates snapW payloadW)
      = lookupKey "customer_name" snapW ∧
    update_pending_order_endpoint [pendingRowW] 1 payloadW 8
      = Except.ok (db_update_pending_order [pendingRowW] 1
          (mergeUpdates pendingRowW.pdf_data payloadW) 8).2 := by
  refine ⟨?_, ?_, ?_, ?_⟩
  · exact (update_pending_merge_semantics [pendingRowW] 9 payloadW 8 snapW "invoice_number"
      (JVal.jstr (strL "B-2")) (by decide) (by decide) (by decide)).1 (by decide)
  · exact (update_pending_merge_semantics [pendingRowW] 9 payloadW 8 snapW "invoice_number"
      (JVal.jstr (strL "B-2")) (by decide) (by decide) (by decide)).2.1
  · exact (update_pending_merge_semantics [pendingRowW] 9 payloadW 8 snapW "invoice_number"
      (JVal.jstr (strL "B-2")) (by decide) (by decide) (by decide)).2.2.1
      "customer_name" (by decide)
  · exact (update_pending_merge_semantics [pendingRowW] 1 payloadW 8 snapW "invoice_number"
      (JVal.jstr (strL "B-2")) (by decide) (by decide) (by decide)).2.2.2
      pendingRowW (by decide)

/-- C9: the store-layer update of a pending order returns success and, row
by row, changes only pdf_data and updated_at of the row with the given id;
its id, filename, status and created_at are unchanged, and every other row
is wholly unchanged (the row lists correspond position by position). -/
theorem db_update_pending_frame (tbl : List PendingRow) (oid : Nat)
    (d : List (String × JVal)) (now : Nat) :
    (db_update_pending_order tbl oid d now).1 = true ∧
    List.Forall₂ (fun r rr => rr.id = r.id ∧ rr.filename = r.filename ∧
        rr.status = r.status ∧ rr.created_at = r.created_at ∧
        (r.id ≠ oid → rr = r) ∧ (r.id = oid → rr.pdf_data = d ∧ rr.updated_at = now))
      tbl (db_update_pending_order tbl oid d now).2 := by
  refine ⟨rfl, ?_⟩
  show List.Forall₂ _ tbl (tbl.map fun r =>
    if r.id = oid then { r with pdf_data := d, updated_at := now } else r)
  rw [List.forall₂_map_right_iff, List.forall₂_same]
  intro r hr
  by_cases h : r.id = oid
  · rw [if_pos h]
    exact ⟨rfl, rfl, rfl, rfl, fun hne => absurd h hne, fun _ => ⟨rfl, rfl⟩⟩
  · rw [if_neg h]
    exact ⟨rfl, rfl, rfl, rfl, fun _ => rfl, fun he => absurd he h⟩

/-- Witness for C9 (the theorem has no side condition; this instantiates it
at a concrete two-row table). -/
theorem db_update_pending_frame_witness :
    (db_update_pending_order [pendingRowW, { pendingRowW with id := 2 }] 2 [] 9).1 = true ∧
    List.Forall₂ (fun r rr => rr.id = r.id ∧ rr.filename = r.filename ∧
        rr.status = r.status ∧ rr.created_at = r.created_at ∧
        (r.id ≠ 2 → rr = r) ∧ (r.id = 2 → rr.pdf_data = [] ∧ rr.updated_at = 9))
      [pendingRowW, { pendingRowW with id := 2 }]
      (db_update_pending_order [pendingRowW, { pendingRowW with id := 2 }] 2 [] 9).2 :=
  db_update_pending_frame [pendingRowW, { pendingRowW with id := 2 }] 2 [] 9

/-- C10: the store-layer update with an id matching no row returns True and
leaves the table unchanged — a silent no-op at this layer. -/
theorem db_update_pending_unknown_id (tbl : List PendingRow) (oid : Nat)
    (d : List (String × JVal)) (now : Nat) (h : ∀ r ∈ tbl, r.id ≠ oid) :
    db_update_pending_order tbl oid d now = (true, tbl) := by
  unfold db_update_pending_order
  have h2 : ∀ r ∈ tbl,
      (if r.id = oid then { r with pdf_data := d, updated_at := now } else r) = r :=
    fun r hr => if_neg (h r hr)
  rw [List.map_congr_left h2, List.map_id']

/-- Witness for C10: updating id 42 in a table whose only row has id 1. -/
theorem db_update_pending_unknown_id_witness :
    db_update_pending_order [pendingRowW] 42 [] 9 = (true, [pendingRowW]) :=
  db_update_pending_unknown_id [pendingRowW] 42 [] 9 (by decide)
